import Mathlib

/-!
Verification of the LakeSoul rust metadata client
(`rust/lakesoul-metadata/src/metadata_client.rs`) through a shallow
embedding.  The entity record types mirror the protobuf entity structs
(the proto crate is external to the sources at hand, so their field lists
are modelled from the spec's data model, §3); the client methods are
translated function by function from `metadata_client.rs`.  The DAO layer
(`execute_insert` / `execute_query` dispatch against postgres) is an
external collaborator; queries and inserts are modelled from the spec
(§4.5, §6) as operations on an abstract metadata store `MetaState`,
with transient DAO failures treated separately by the retry model.
-/

namespace LakeSoul

/-- 128-bit commit identifier, stored as two 64-bit halves as in the
proto `entity.Uuid`. -/
structure Uuid where
  high : Nat
  low : Nat
  deriving DecidableEq, Repr

/-- One file operation of a data commit: a path plus an operation kind. -/
structure FileOp where
  path : String
  file_op : Int
  deriving DecidableEq, Repr

/-- One partition's committed state (proto `entity.PartitionInfo`), fields
per spec §3 and the uses in `metadata_client.rs`. -/
structure PartitionInfo where
  table_id : String := ""
  partition_desc : String := ""
  version : Int := 0
  snapshot : List Uuid := []
  domain : String := ""
  commit_op : Int := 0
  expression : String := ""
  deriving DecidableEq, Repr

/-- One commit's payload (proto `entity.DataCommitInfo`). -/
structure DataCommitInfo where
  table_id : String := ""
  partition_desc : String := ""
  commit_id : Option Uuid := none
  file_ops : List FileOp := []
  commit_op : Int := 0
  committed : Bool := false
  domain : String := ""
  deriving DecidableEq, Repr

/-- One table's identity and metadata (proto `entity.TableInfo`). -/
structure TableInfo where
  table_id : String := ""
  table_name : String := ""
  table_path : String := ""
  table_schema : String := ""
  table_namespace : String := ""
  domain : String := ""
  deriving DecidableEq, Repr

/-- Secondary index name+namespace → id (see
`table_name_id_from_table_info`). -/
structure TableNameId where
  table_name : String := ""
  table_id : String := ""
  table_namespace : String := ""
  domain : String := ""
  deriving DecidableEq, Repr

/-- Secondary index path → id (see `table_path_id_from_table_info`). -/
structure TablePathId where
  table_path : String := ""
  table_id : String := ""
  table_namespace : String := ""
  domain : String := ""
  deriving DecidableEq, Repr

/-- A namespace record; identified by name (spec §3). -/
structure Namespace where
  namespace_name : String := ""
  deriving DecidableEq, Repr

/-- Transient aggregate of one `TableInfo` plus touched partitions
(proto `entity.MetaInfo`). -/
structure MetaInfo where
  table_info : Option TableInfo := none
  list_partition : List PartitionInfo := []
  deriving DecidableEq, Repr

/-- Wire envelope with one repeated field per entity kind (spec §6). -/
structure JniWrapper where
  namespace_list : List Namespace := []
  table_info : List TableInfo := []
  table_name_id : List TableNameId := []
  table_path_id : List TablePathId := []
  partition_info : List PartitionInfo := []
  data_commit_info : List DataCommitInfo := []
  deriving DecidableEq, Repr

/-- Rust `Default::default()` of the wire envelope: every repeated field
empty. -/
def JniWrapper.default : JniWrapper := {}

/-- Modelled from the spec: the `CommitOp` classification of the external
proto crate (§3: "variants include append, merge, and others not yet
handled by the fold algorithm").  The integer codes follow the proto
enumeration order; only their distinctness and the partiality of decoding
matter for the claims. -/
inductive CommitOp where
  | UpdateCommit
  | CompactionCommit
  | AppendCommit
  | MergeCommit
  | DeleteCommit
  deriving DecidableEq, Repr

/-- The cast `commit_op as i32`. -/
def CommitOp.toInt : CommitOp → Int
  | .UpdateCommit => 0
  | .CompactionCommit => 1
  | .AppendCommit => 2
  | .MergeCommit => 3
  | .DeleteCommit => 4

/-- Decoder `CommitOp::from_i32`: decodes a stored integer into a variant,
`none` for an unrecognized value. -/
def CommitOp.fromInt (n : Int) : Option CommitOp :=
  if n = 0 then some .UpdateCommit
  else if n = 1 then some .CompactionCommit
  else if n = 2 then some .AppendCommit
  else if n = 3 then some .MergeCommit
  else if n = 4 then some .DeleteCommit
  else none

/-- Typed errors of the client (`crate::error::LakeSoulMetaDataError`):
an internal error carrying a message, or other driver/decode failures. -/
inductive MetaError where
  | Internal : String → MetaError
  | Other : String → MetaError
  deriving DecidableEq, Repr

/-- Outcome of running a client method: a typed success, a typed error,
or a rust panic (carrying the panic message).  `unwrap` on `None`/empty
indexing and `todo!()` are panics, not typed errors. -/
inductive Outcome (α : Type) where
  | ok : α → Outcome α
  | err : MetaError → Outcome α
  | panicked : String → Outcome α
  deriving DecidableEq, Repr

/-! ## Retry-wrapped DAO execution (spec §4.1)

`MetaDataClient::execute_insert` / `execute_query` loop
`for times in 0..self.max_retry`, calling the DAO each iteration with the
same payload.  A success returns immediately; an error before the final
attempt is discarded (`Err(_) if times < self.max_retry - 1 => continue`);
an error on the final attempt is returned; falling out of the loop (only
possible when `max_retry = 0`) returns the fall-through default
(`Ok(0)` for inserts, `Ok(Default::default())` for queries).  The DAO stub
is indexed by the attempt number; `onOk` is what the `Ok` branch returns
(the identity for inserts, `JniWrapper::decode` for queries).  The second
component counts DAO invocations actually made. -/

def retryLoop {E A B : Type} (dao : Nat → Except E A) (onOk : A → Except E B)
    (deflt : B) (maxRetry times calls : Nat) : Except E B × Nat :=
  if times < maxRetry then
    match dao times with
    | .ok a => (onOk a, calls + 1)
    | .error e =>
      if times < maxRetry - 1 then
        retryLoop dao onOk deflt maxRetry (times + 1) (calls + 1)
      else (.error e, calls + 1)
  else (.ok deflt, calls)
termination_by maxRetry - times
decreasing_by omega

/-- Model of `MetaDataClient::execute_insert(insert_type, wrapper)`: the DAO is
invoked with the same `insert_type` and (a clone of) the same `wrapper`
on every attempt; the `Ok(count)` branch returns the count unchanged and
the fall-through returns `Ok(0)`. -/
def clientExecuteInsert {E : Type} (max_retry : Nat)
    (dao : Int → JniWrapper → Nat → Except E Int)
    (insert_type : Int) (wrapper : JniWrapper) : Except E Int × Nat :=
  retryLoop (dao insert_type wrapper) (fun count => .ok count) 0 max_retry 0 0

/-- Model of `MetaDataClient::execute_query(query_type, joined_string)`: the DAO is
invoked with the same `query_type` and (a clone of) the same
`joined_string` each attempt; the `Ok(encoded)` branch returns
`JniWrapper::decode(encoded)` (whose own failure is a typed error, not
retried), and the fall-through returns `Ok(Default::default())`.
The byte representation and decoder are abstract (the wire schema is an
external contract, spec §6). -/
def clientExecuteQuery {E Bytes : Type} (max_retry : Nat)
    (dao : Int → String → Nat → Except E Bytes)
    (decode : Bytes → Except E JniWrapper)
    (query_type : Int) (joined_string : String) : Except E JniWrapper × Nat :=
  retryLoop (dao query_type joined_string) decode JniWrapper.default max_retry 0 0

/-! ## The abstract metadata store

Modelled from the spec: the DAO dispatch layer and the backing postgres
tables are external collaborators (spec §1, §6).  `MetaState` holds the
current rows of the four tables the claims touch.  Partition state keeps
the *current* `PartitionInfo` per (table id, partition descriptor): the
batched read (`ListPartitionDescByTableIdAndParList`) returns the current
record for each requested descriptor (spec §4.3 step 2) and the
transactional write (`TransactionInsertPartitionInfo`) makes each written
record the new current one (spec §4.3 step 4).  Client methods are
modelled at DAO-success level (no transient failures; the retry wrapper is
modelled separately above). -/

structure MetaState where
  partitions : List PartitionInfo := []
  dataCommits : List DataCommitInfo := []
  tableInfos : List TableInfo := []
  tableNameIds : List TableNameId := []
  deriving DecidableEq, Repr

/-- Modelled from the spec: DAO `ListPartitionDescByTableIdAndParList` —
the batched query of spec §4.3 step 2, returning current `PartitionInfo`
rows for the table and the requested descriptors. -/
def get_partition_info_by_table_id_and_partition_list (s : MetaState)
    (table_id : String) (partition_desc_list : List String) : List PartitionInfo :=
  s.partitions.filter fun p =>
    p.table_id == table_id && partition_desc_list.contains p.partition_desc

/-- A `HashMap` collected from an iterator of key/value pairs: a later entry
with the same key overwrites an earlier one, so lookup returns the last
matching value. -/
def hashMapLookup {V : Type} : List (String × V) → String → Option V
  | [], _ => none
  | (k, v) :: rest, key =>
    match hashMapLookup rest key with
    | some r => some r
    | none => if k == key then some v else none

/-- Model of `MetaDataClient::get_cur_partition_map`: rows of the batched read,
keyed by partition descriptor. -/
def get_cur_partition_map (s : MetaState) (table_id : String)
    (partition_desc_list : List String) : List (String × PartitionInfo) :=
  (get_partition_info_by_table_id_and_partition_list s table_id
      partition_desc_list).map fun p => (p.partition_desc, p)

/-- Modelled from the spec: DAO `TransactionInsertPartitionInfo` persisting
one record — the written record becomes the current one for its
(table id, partition descriptor) key. -/
def upsertPartition (ps : List PartitionInfo) (p : PartitionInfo) : List PartitionInfo :=
  if ps.any fun q => q.table_id == p.table_id && q.partition_desc == p.partition_desc then
    ps.map fun q =>
      if q.table_id == p.table_id && q.partition_desc == p.partition_desc then p else q
  else ps ++ [p]

/-- Model of `MetaDataClient::transaction_insert_partition_info`: persist the full
list of merged/created records in one logical write (spec §4.3 step 4). -/
def transaction_insert_partition_info (s : MetaState)
    (partition_info_list : List PartitionInfo) : MetaState :=
  { s with partitions := partition_info_list.foldl upsertPartition s.partitions }

/-- Modelled from the spec: DAO `InsertDataCommitInfo` — inserts the new
`DataCommitInfo` row (spec §4.4 step 3). -/
def insert_data_commit_info (s : MetaState) (d : DataCommitInfo) : MetaState :=
  { s with dataCommits := s.dataCommits ++ [d] }

/-- Model of `MetaDataClient::get_table_domain`: the source ignores its argument
and returns `Ok("public")` (the property lookup is a todo). -/
def get_table_domain (_table_id : String) : Except MetaError String :=
  .ok "public"

/-- Model of `MetaDataClient::get_single_data_commit_info`: query rows for
(table id, partition descriptor, commit id); an empty result is
`Ok(None)`, otherwise the first row.  The commit identifier is matched
directly (the source compares on the uuid rendered from the stored
64-bit pair, an injective encoding). -/
def get_single_data_commit_info (s : MetaState) (table_id : String)
    (partition_desc : String) (commit_id : Uuid) : Outcome (Option DataCommitInfo) :=
  let rows := s.dataCommits.filter fun c =>
    c.table_id == table_id && c.partition_desc == partition_desc
      && c.commit_id == some commit_id
  match rows with
  | [] => .ok none
  | first :: _ => .ok (some first)

/-- Model of `MetaDataClient::get_table_info_by_table_name`: zero rows is a typed
not-found error naming the queried table
(`format!("Table '{}' not found", table_name)`); otherwise the first
row. -/
def get_table_info_by_table_name (s : MetaState) (table_name : String)
    (nspace : String) : Outcome TableInfo :=
  let rows := s.tableInfos.filter fun t =>
    t.table_name == table_name && t.table_namespace == nspace
  match rows with
  | [] => .err (.Internal ("Table '" ++ table_name ++ "' not found"))
  | first :: _ => .ok first

/-- Model of `MetaDataClient::get_table_info_by_table_id`: returns
`wrapper.table_info[0]` with no emptiness check — zero rows is an
out-of-bounds panic. -/
def get_table_info_by_table_id (s : MetaState) (table_id : String) : Outcome TableInfo :=
  let rows := s.tableInfos.filter fun t => t.table_id == table_id
  match rows with
  | [] => .panicked "index out of bounds: the len is 0 but the index is 0"
  | first :: _ => .ok first

/-- Model of `MetaDataClient::get_table_name_id_by_table_name`: returns
`wrapper.table_name_id[0]` with no emptiness check — zero rows is an
out-of-bounds panic. -/
def get_table_name_id_by_table_name (s : MetaState) (table_name : String)
    (nspace : String) : Outcome TableNameId :=
  let rows := s.tableNameIds.filter fun t =>
    t.table_name == table_name && t.table_namespace == nspace
  match rows with
  | [] => .panicked "index out of bounds: the len is 0 but the index is 0"
  | first :: _ => .ok first

/-- Model of `MetaDataClient::get_all_partition_info`: DAO `ListPartitionByTableId`,
all current partition rows of one table. -/
def get_all_partition_info (s : MetaState) (table_id : String) : List PartitionInfo :=
  s.partitions.filter fun p => p.table_id == table_id

/-- Model of `MetaDataClient::get_data_commit_info_of_single_partition`: DAO
`ListDataCommitInfoByTableIdAndPartitionDescAndCommitList` — the
`DataCommitInfo` rows of one partition whose commit id occurs in the
partition's snapshot (the source joins the snapshot's uuids into the
query argument; identifiers are matched directly here). -/
def get_data_commit_info_of_single_partition (s : MetaState)
    (partition_info : PartitionInfo) : List DataCommitInfo :=
  s.dataCommits.filter fun d =>
    d.table_id == partition_info.table_id
      && d.partition_desc == partition_info.partition_desc
      && match d.commit_id with
         | some c => partition_info.snapshot.contains c
         | none => false

/-! ## Commit protocol (spec §4.3 / §4.4) -/

/-- The per-entry fold of `commit_data` for `Append`/`Merge`: if the
batched pre-read holds a current record for the entry's descriptor, merge
into it (domain recomputed, snapshot extended with the incoming entries,
version + 1, commit op overwritten, expression replaced); else a fresh
record at version 0.  `domain` is the recomputed table domain — the source
calls `self.get_table_domain(&table_info.table_id).unwrap()` inside the
closure; `get_table_domain` is pure and always `Ok`, so the call is
hoisted. -/
def commitDataFoldEntry (cur_map : List (String × PartitionInfo))
    (table_id domain : String) (commit_op : CommitOp)
    (partition_info : PartitionInfo) : PartitionInfo :=
  match hashMapLookup cur_map partition_info.partition_desc with
  | some cur_partition_info =>
    { cur_partition_info with
      domain := domain
      snapshot := cur_partition_info.snapshot ++ partition_info.snapshot
      version := cur_partition_info.version + 1
      commit_op := commit_op.toInt
      expression := partition_info.expression }
  | none =>
    { table_id := table_id
      partition_desc := partition_info.partition_desc
      version := 0
      snapshot := partition_info.snapshot
      domain := domain
      commit_op := commit_op.toInt
      expression := partition_info.expression }

/-- Model of `MetaDataClient::commit_data(meta_info, commit_op)`:
`meta_info.table_info.unwrap()` (a `None` panics); batched pre-read of
current partition state keyed by descriptor; for `AppendCommit` /
`MergeCommit` map every incoming entry through the fold and persist the
whole list transactionally; every other variant hits `todo!()`, a panic. -/
def commit_data (s : MetaState) (meta_info : MetaInfo) (commit_op : CommitOp) :
    Outcome MetaState :=
  match meta_info.table_info with
  | none => .panicked "called Option.unwrap on a None value"
  | some table_info =>
    let partition_desc_list := meta_info.list_partition.map fun p => p.partition_desc
    let cur_map := get_cur_partition_map s table_info.table_id partition_desc_list
    match commit_op with
    | .AppendCommit | .MergeCommit =>
      match get_table_domain table_info.table_id with
      | .error _ => .panicked "called Result.unwrap on an Err value"
      | .ok domain =>
        let new_partition_list := meta_info.list_partition.map
          (commitDataFoldEntry cur_map table_info.table_id domain commit_op)
        .ok (transaction_insert_partition_info s new_partition_list)
    | _ => .panicked "not yet implemented"

/-- The `MetaInfo` that `commit_data_commit_info` constructs before
delegating to `commit_data`: the owning table info plus a single
`PartitionInfo` carrying the commit's table id, partition descriptor,
raw commit op integer and domain, whose snapshot is exactly the one
commit identifier; every other field is defaulted. -/
def commitDataCommitInfoMetaInfo (table_info : TableInfo)
    (data_commit_info : DataCommitInfo) (domain : String) (commit_id : Uuid) :
    MetaInfo :=
  { table_info := some table_info
    list_partition := [{ table_id := data_commit_info.table_id
                         partition_desc := data_commit_info.partition_desc
                         commit_op := data_commit_info.commit_op
                         domain := domain
                         snapshot := [commit_id] }] }

/-- The tail of `commit_data_commit_info` after the duplicate check:
fetch the owning table info (empty rows panic, see
`get_table_info_by_table_id`) and the table domain (`?` on error), and
delegate to `commit_data` with the one-partition `MetaInfo`, decoding the
stored commit op integer with `CommitOp::from_i32(..).unwrap()` (an
unrecognized value panics). -/
def commitDataCommitInfoRest (s₁ : MetaState) (data_commit_info : DataCommitInfo)
    (commit_id : Uuid) : Outcome MetaState :=
  match get_table_info_by_table_id s₁ data_commit_info.table_id with
  | .panicked msg => .panicked msg
  | .err e => .err e
  | .ok table_info =>
    match get_table_domain data_commit_info.table_id with
    | .error e => .err e
    | .ok domain =>
      match CommitOp.fromInt data_commit_info.commit_op with
      | none => .panicked "called Option.unwrap on a None value"
      | some op =>
        commit_data s₁
          (commitDataCommitInfoMetaInfo table_info data_commit_info domain commit_id)
          op

/-- Model of `MetaDataClient::commit_data_commit_info(data_commit_info)`:
`commit_id.unwrap()` (a `None` panics); look up the commit (`?` on
error) — found with `committed = true` returns `Ok(())` at once, not
found inserts the row first, found but uncommitted changes nothing; the
two non-returning arms continue with `commitDataCommitInfoRest`. -/
def commit_data_commit_info (s : MetaState) (data_commit_info : DataCommitInfo) :
    Outcome MetaState :=
  match data_commit_info.commit_id with
  | none => .panicked "called Option.unwrap on a None value"
  | some commit_id =>
    match get_single_data_commit_info s data_commit_info.table_id
        data_commit_info.partition_desc commit_id with
    | .err e => .err e
    | .panicked msg => .panicked msg
    | .ok (some existing) =>
      if existing.committed then .ok s
      else commitDataCommitInfoRest s data_commit_info commit_id
    | .ok none =>
      commitDataCommitInfoRest (insert_data_commit_info s data_commit_info)
        data_commit_info commit_id

/-! ## Data-file listing (spec §4.6) -/

/-- The flattened file-operation paths of one partition's commit list. -/
def partitionDataFiles (s : MetaState) (partition_info : PartitionInfo) : List String :=
  (get_data_commit_info_of_single_partition s partition_info).flatMap
    fun data_commit_info => data_commit_info.file_ops.map fun file_op => file_op.path

/-- The partition loop of `get_data_files_by_table_name`: a partition
whose descriptor occurs in the filter strings is skipped (`continue`);
otherwise its commit list's file-operation paths are appended. -/
def dataFilesLoop (s : MetaState) (partition_filter : List String) :
    List PartitionInfo → List String
  | [] => []
  | partition_info :: rest =>
    if partition_filter.contains partition_info.partition_desc then
      dataFilesLoop s partition_filter rest
    else
      partitionDataFiles s partition_info ++ dataFilesLoop s partition_filter rest

/-- Model of `MetaDataClient::get_data_files_by_table_name(table_name, partitions,
namespace)`: render the filter pairs as `"k=v"` strings, resolve the
table by name, enumerate its partitions, and collect the flattened paths
of every partition not matched by the filter. -/
def get_data_files_by_table_name (s : MetaState) (table_name : String)
    (partitions : List (String × String)) (nspace : String) :
    Outcome (List String) :=
  let partition_filter := partitions.map fun kv => kv.1 ++ "=" ++ kv.2
  match get_table_info_by_table_name s table_name nspace with
  | .err e => .err e
  | .panicked msg => .panicked msg
  | .ok table_info =>
    let partition_list := get_all_partition_info s table_info.table_id
    .ok (dataFilesLoop s partition_filter partition_list)

/-! ## Retry lemmas -/

/-- A DAO stub that fails on the first `N` attempts and then succeeds. -/
def failNStub {E A : Type} (N : Nat) (errs : Nat → E) (v : A) (n : Nat) : Except E A :=
  if n < N then .error (errs n) else .ok v

theorem retryLoop_stub_succeeds {E A B : Type} (N : Nat) (errs : Nat → E) (v : A)
    (onOk : A → Except E B) (deflt : B) (maxRetry times calls : Nat)
    (hle : times ≤ N) (hlt : N < maxRetry) :
    (retryLoop (failNStub N errs v) onOk deflt maxRetry times calls).1 = onOk v := by
  rw [retryLoop]
  by_cases hN : times < N
  · rw [if_pos (by omega : times < maxRetry)]
    simp only [failNStub, if_pos hN]
    rw [if_pos (by omega : times < maxRetry - 1)]
    exact retryLoop_stub_succeeds N errs v onOk deflt maxRetry (times + 1) (calls + 1)
      (by omega) hlt
  · rw [if_pos (by omega : times < maxRetry)]
    simp only [failNStub, if_neg hN]
termination_by N - times

theorem retryLoop_stub_fails {E A B : Type} (N : Nat) (errs : Nat → E) (v : A)
    (onOk : A → Except E B) (deflt : B) (maxRetry times calls : Nat)
    (hlt : times < maxRetry) (hN : maxRetry ≤ N) :
    (retryLoop (failNStub N errs v) onOk deflt maxRetry times calls).1 =
      .error (errs (maxRetry - 1)) := by
  rw [retryLoop]
  rw [if_pos hlt]
  simp only [failNStub, if_pos (by omega : times < N)]
  by_cases hlast : times < maxRetry - 1
  · rw [if_pos hlast]
    exact retryLoop_stub_fails N errs v onOk deflt maxRetry (times + 1) (calls + 1)
      (by omega) hN
  · rw [if_neg hlast]
    have : times = maxRetry - 1 := by omega
    rw [this]
termination_by maxRetry - times

/-- C3: with a DAO stub failing exactly `N` times and then succeeding,
`execute_insert` (and `execute_query`) succeeds iff `N < max_retry`,
short-circuiting with the stub's success value (the decoded wrapper for a
query); when all `max_retry` attempts fail, the error of the last attempt
(`errs (max_retry - 1)`) is returned unchanged.  Each attempt is issued
with the same operation type and the same payload by construction of
`clientExecuteInsert` / `clientExecuteQuery`. -/
theorem execute_retry_bound {E Bytes : Type} (N max_retry : Nat) (errs : Nat → E)
    (count : Int) (encoded : Bytes) (decode : Bytes → Except E JniWrapper)
    (w : JniWrapper) (insert_type query_type : Int) (payload : JniWrapper)
    (argument : String)
    (hmr : 1 ≤ max_retry) (hdec : decode encoded = .ok w) :
    (((clientExecuteInsert max_retry (fun _ _ => failNStub N errs count)
          insert_type payload).1 = .ok count ↔ N < max_retry)
      ∧ (max_retry ≤ N →
          (clientExecuteInsert max_retry (fun _ _ => failNStub N errs count)
            insert_type payload).1 = .error (errs (max_retry - 1))))
    ∧ (((clientExecuteQuery max_retry (fun _ _ => failNStub N errs encoded)
          decode query_type argument).1 = .ok w ↔ N < max_retry)
      ∧ (max_retry ≤ N →
          (clientExecuteQuery max_retry (fun _ _ => failNStub N errs encoded)
            decode query_type argument).1 = .error (errs (max_retry - 1)))) := by
  unfold clientExecuteInsert clientExecuteQuery
  refine ⟨⟨⟨fun hok => ?_, fun hlt => ?_⟩, fun hge => ?_⟩,
    ⟨⟨fun hok => ?_, fun hlt => ?_⟩, fun hge => ?_⟩⟩
  · by_contra hge
    rw [retryLoop_stub_fails N errs count _ 0 max_retry 0 0 (by omega) (by omega)] at hok
    exact Except.noConfusion hok
  · exact retryLoop_stub_succeeds N errs count _ 0 max_retry 0 0 (by omega) hlt
  · exact retryLoop_stub_fails N errs count _ 0 max_retry 0 0 (by omega) hge
  · by_contra hge
    rw [retryLoop_stub_fails N errs encoded decode JniWrapper.default max_retry 0 0
      (by omega) (by omega)] at hok
    exact Except.noConfusion hok
  · rw [retryLoop_stub_succeeds N errs encoded decode JniWrapper.default max_retry 0 0
      (by omega) hlt]
    exact hdec
  · exact retryLoop_stub_fails N errs encoded decode JniWrapper.default max_retry 0 0
      (by omega) hge

/-- C3 witness: `N = 1` failures against `max_retry = 3` succeed; the
instantiation also exercises the error clause vacuously. -/
theorem execute_retry_bound_witness :
    ((clientExecuteInsert 3 (fun _ _ => failNStub 1 (fun _ => MetaError.Other "boom") 7)
        0 JniWrapper.default).1 = .ok 7 ↔ 1 < 3)
      ∧ ((clientExecuteQuery 3 (fun _ _ => failNStub 1 (fun _ => MetaError.Other "boom") 0)
            (fun _ : Nat => Except.ok JniWrapper.default) 0 "arg").1
          = .ok JniWrapper.default ↔ 1 < 3) :=
  ⟨(execute_retry_bound 1 3 (fun _ => MetaError.Other "boom") 7 0
      (fun _ : Nat => Except.ok JniWrapper.default) JniWrapper.default 0 0
      JniWrapper.default "arg" (by omega) rfl).1.1,
   (execute_retry_bound 1 3 (fun _ => MetaError.Other "boom") 7 0
      (fun _ : Nat => Except.ok JniWrapper.default) JniWrapper.default 0 0
      JniWrapper.default "arg" (by omega) rfl).2.1⟩

/-- C9: a client built with `max_retry = 0` never invokes the DAO: the
retry loop body is skipped entirely, `execute_insert` falls through to
`Ok(0)` and `execute_query` to `Ok(Default::default())`, so every insert
and query reports success without touching the database (the call counter
stays at 0 for every DAO stub). -/
theorem zero_max_retry_vacuous_success {E Bytes : Type}
    (daoInsert : Int → JniWrapper → Nat → Except E Int)
    (daoQuery : Int → String → Nat → Except E Bytes)
    (decode : Bytes → Except E JniWrapper)
    (insert_type query_type : Int) (payload : JniWrapper) (argument : String) :
    clientExecuteInsert 0 daoInsert insert_type payload = (.ok 0, 0)
      ∧ clientExecuteQuery 0 daoQuery decode query_type argument
          = (.ok JniWrapper.default, 0) := by
  constructor <;>
    · simp only [clientExecuteInsert, clientExecuteQuery]; rw [retryLoop]; simp

/-! ## Concrete fixtures used by witnesses and counterexamples -/

def exTable : TableInfo :=
  { table_id := "tid1", table_name := "tbl", table_path := "/p",
    table_schema := "s", table_namespace := "ns", domain := "public" }

def exCid : Uuid := { high := 1, low := 2 }

/-! ## C1: the Append/Merge fold of commit_data -/

/-- C1: for commitOp ∈ {Append, Merge}, `commit_data` persists, per
incoming partition entry, the existing record of the batched pre-read
with domain recomputed (the recomputed table domain is `"public"`),
snapshot extended by the incoming entries in order without deduplication,
version + 1, last commit operation `commitOp` and the incoming
expression — or, with no existing record, a fresh record at version 0
carrying the incoming snapshot, the recomputed domain, `commitOp` and the
incoming expression. -/
theorem commit_data_append_merge_fold (s : MetaState) (meta_info : MetaInfo)
    (commit_op : CommitOp) (ti : TableInfo)
    (hop : commit_op = .AppendCommit ∨ commit_op = .MergeCommit)
    (hti : meta_info.table_info = some ti) :
    commit_data s meta_info commit_op =
      .ok (transaction_insert_partition_info s
        (meta_info.list_partition.map fun p =>
          match hashMapLookup
              (get_cur_partition_map s ti.table_id
                (meta_info.list_partition.map fun q => q.partition_desc))
              p.partition_desc with
          | some cur =>
            { cur with
              domain := "public"
              snapshot := cur.snapshot ++ p.snapshot
              version := cur.version + 1
              commit_op := commit_op.toInt
              expression := p.expression }
          | none =>
            { table_id := ti.table_id
              partition_desc := p.partition_desc
              version := 0
              snapshot := p.snapshot
              domain := "public"
              commit_op := commit_op.toInt
              expression := p.expression })) := by
  rcases hop with rfl | rfl <;>
    simp only [commit_data, hti, get_table_domain, commitDataFoldEntry] <;> rfl

def c1Meta : MetaInfo :=
  { table_info := some exTable
    list_partition := [{ table_id := "tid1", partition_desc := "a=1",
                         snapshot := [exCid], expression := "expr" }] }

/-- C1 witness: an Append commit of one partition entry against the empty
store creates the version-0 record. -/
theorem commit_data_append_merge_fold_witness :
    commit_data {} c1Meta CommitOp.AppendCommit =
      .ok { partitions := [{ table_id := "tid1", partition_desc := "a=1",
                             version := 0, snapshot := [exCid],
                             domain := "public", commit_op := 2,
                             expression := "expr" }] } :=
  (commit_data_append_merge_fold {} c1Meta CommitOp.AppendCommit exTable
      (Or.inl rfl) rfl).trans (by decide)

/-! ## C4: commit_data outside Append/Merge -/

/-- C4 counterexample: at a concrete well-formed `MetaInfo` and
`UpdateCommit`, `commit_data` hits `todo!()` — a panic, not a typed
unsupported-operation error, contradicting the claim that it does not
panic. -/
theorem commit_data_update_commit_panics_cex :
    commit_data {} { table_info := some exTable } CommitOp.UpdateCommit
      = .panicked "not yet implemented" := by decide

/-- C4 (amended): for every well-formed `MetaInfo` and every `CommitOp`
variant outside {Append, Merge}, `commit_data` panics with the
not-yet-implemented panic of `todo!()` — it neither returns a typed error
nor applies any default merge policy. -/
theorem commit_data_unsupported_op_panics (s : MetaState) (meta_info : MetaInfo)
    (ti : TableInfo) (commit_op : CommitOp)
    (hti : meta_info.table_info = some ti)
    (hop : commit_op ≠ .AppendCommit ∧ commit_op ≠ .MergeCommit) :
    commit_data s meta_info commit_op = .panicked "not yet implemented" := by
  obtain ⟨h1, h2⟩ := hop
  cases commit_op
  case AppendCommit => exact absurd rfl h1
  case MergeCommit => exact absurd rfl h2
  all_goals simp [commit_data, hti]

/-- C4 witness: the amended statement instantiated at `DeleteCommit`. -/
theorem commit_data_unsupported_op_panics_witness :
    commit_data {} { table_info := some exTable } CommitOp.DeleteCommit
      = .panicked "not yet implemented" :=
  commit_data_unsupported_op_panics {} { table_info := some exTable } exTable
    CommitOp.DeleteCommit rfl (by simp)

/-! ## Helper lemmas about the commit protocol -/

theorem get_single_filter (s : MetaState) (tid pdesc : String) (cid : Uuid) :
    get_single_data_commit_info s tid pdesc cid =
      .ok ((s.dataCommits.filter fun c =>
          c.table_id == tid && c.partition_desc == pdesc
            && c.commit_id == some cid).head?) := by
  unfold get_single_data_commit_info
  cases s.dataCommits.filter fun c =>
      c.table_id == tid && c.partition_desc == pdesc && c.commit_id == some cid
  all_goals rfl

theorem get_single_after_insert (s : MetaState) (d : DataCommitInfo) (cid : Uuid)
    (hcid : d.commit_id = some cid)
    (hnone : get_single_data_commit_info s d.table_id d.partition_desc cid = .ok none) :
    get_single_data_commit_info (insert_data_commit_info s d)
      d.table_id d.partition_desc cid = .ok (some d) := by
  rw [get_single_filter] at hnone ⊢
  simp only [Outcome.ok.injEq] at hnone ⊢
  rw [List.head?_eq_none_iff] at hnone
  simp [insert_data_commit_info, List.filter_append, hnone, hcid]

theorem commit_data_ok_preserves (s t : MetaState) (mi : MetaInfo) (op : CommitOp)
    (h : commit_data s mi op = .ok t) :
    t.dataCommits = s.dataCommits ∧ t.tableInfos = s.tableInfos
      ∧ t.tableNameIds = s.tableNameIds := by
  cases hti : mi.table_info with
  | none => simp [commit_data, hti] at h
  | some ti =>
    cases op <;> simp only [commit_data, hti, get_table_domain] at h <;>
      first
      | exact Outcome.noConfusion h
      | (injection h with h'
         subst h'
         exact ⟨rfl, rfl, rfl⟩)

theorem commitDataCommitInfoRest_ok_preserves (s₁ t : MetaState) (d : DataCommitInfo)
    (cid : Uuid) (h : commitDataCommitInfoRest s₁ d cid = .ok t) :
    t.dataCommits = s₁.dataCommits ∧ t.tableInfos = s₁.tableInfos
      ∧ t.tableNameIds = s₁.tableNameIds := by
  unfold commitDataCommitInfoRest at h
  split at h
  · exact Outcome.noConfusion h
  · exact Outcome.noConfusion h
  · simp only [get_table_domain] at h
    split at h
    · exact Outcome.noConfusion h
    · exact commit_data_ok_preserves _ _ _ _ h

/-- Inserting a commit row (`insert_data_commit_info`) leaves the table-info rows alone, so the
table lookup after the duplicate check reads the same rows. -/
theorem get_table_info_after_insert (s : MetaState) (d : DataCommitInfo) (tid : String) :
    get_table_info_by_table_id (insert_data_commit_info s d) tid
      = get_table_info_by_table_id s tid := rfl

/-! ## C2: idempotent commit ingestion -/

def c2S0 : MetaState := { tableInfos := [exTable] }

def c2dFalse : DataCommitInfo :=
  { table_id := "tid1", partition_desc := "a=1", commit_id := some exCid,
    commit_op := 2, committed := false }

def c2After1 : MetaState :=
  { partitions := [{ table_id := "tid1", partition_desc := "a=1", version := 0,
                     snapshot := [exCid], domain := "public", commit_op := 2,
                     expression := "" }]
    dataCommits := [c2dFalse]
    tableInfos := [exTable] }

def c2After2 : MetaState :=
  { partitions := [{ table_id := "tid1", partition_desc := "a=1", version := 1,
                     snapshot := [exCid, exCid], domain := "public", commit_op := 2,
                     expression := "" }]
    dataCommits := [c2dFalse]
    tableInfos := [exTable] }

/-- C2 counterexample: with `committed = false`, replaying the identical
`DataCommitInfo` (same commit identifier) folds the partition a second
time — the version climbs to 1 and the snapshot holds the commit id
twice — so the state after the second call differs from the state after
the first. -/
theorem cdci_not_idempotent_cex :
    commit_data_commit_info c2S0 c2dFalse = .ok c2After1
      ∧ commit_data_commit_info c2After1 c2dFalse = .ok c2After2
      ∧ c2After2 ≠ c2After1 :=
  ⟨by decide, by decide, by decide⟩

/-- C2 (amended): for a `DataCommitInfo` whose `committed` flag is true,
and a state whose lookup for (table id, partition descriptor, commit id)
does not find an uncommitted record, a second
`commit_data_commit_info` call leaves the state of the first call
unchanged; and whenever the lookup finds a record with
`committed = true` the call returns success with no insert and no
partition fold (the state is returned untouched). -/
theorem commit_data_commit_info_idempotent (s s₁ : MetaState) (d : DataCommitInfo)
    (cid : Uuid) (hcid : d.commit_id = some cid) (hcom : d.committed = true)
    (hclean : ∀ e, get_single_data_commit_info s d.table_id d.partition_desc cid
        = .ok (some e) → e.committed = true)
    (hfirst : commit_data_commit_info s d = .ok s₁) :
    commit_data_commit_info s₁ d = .ok s₁ ∧
      ∀ t e, get_single_data_commit_info t d.table_id d.partition_desc cid
          = .ok (some e) → e.committed = true → commit_data_commit_info t d = .ok t := by
  have noop : ∀ t e, get_single_data_commit_info t d.table_id d.partition_desc cid
      = .ok (some e) → e.committed = true → commit_data_commit_info t d = .ok t := by
    intro t e hfind hc
    simp only [commit_data_commit_info, hcid, hfind, hc, if_true]
  cases hlook : get_single_data_commit_info s d.table_id d.partition_desc cid with
  | err e => rw [get_single_filter] at hlook; exact Outcome.noConfusion hlook
  | panicked m => rw [get_single_filter] at hlook; exact Outcome.noConfusion hlook
  | ok lookup =>
    cases lookup with
    | some e =>
      have hc := hclean e hlook
      have hself := noop s e hlook hc
      rw [hself] at hfirst
      injection hfirst with h
      subst h
      exact ⟨hself, noop⟩
    | none =>
      have hred : commit_data_commit_info s d
          = commitDataCommitInfoRest (insert_data_commit_info s d) d cid := by
        simp only [commit_data_commit_info, hcid, hlook]
      rw [hred] at hfirst
      obtain ⟨hdc, -, -⟩ := commitDataCommitInfoRest_ok_preserves _ _ _ _ hfirst
      have hfind₁ : get_single_data_commit_info s₁ d.table_id d.partition_desc cid
          = .ok (some d) := by
        rw [get_single_filter, hdc]
        have hins := get_single_after_insert s d cid hcid hlook
        rw [get_single_filter] at hins
        exact hins
      exact ⟨noop s₁ d hfind₁ hcom, noop⟩

def c2dTrue : DataCommitInfo :=
  { table_id := "tid1", partition_desc := "a=1", commit_id := some exCid,
    commit_op := 2, committed := true }

def c2TrueAfter1 : MetaState :=
  { partitions := [{ table_id := "tid1", partition_desc := "a=1", version := 0,
                     snapshot := [exCid], domain := "public", commit_op := 2,
                     expression := "" }]
    dataCommits := [c2dTrue]
    tableInfos := [exTable] }

/-- C2 witness: the amended idempotence applied to a committed commit
against a clean store — the second call returns the first call's state. -/
theorem commit_data_commit_info_idempotent_witness :
    commit_data_commit_info c2TrueAfter1 c2dTrue = .ok c2TrueAfter1 :=
  (commit_data_commit_info_idempotent c2S0 c2TrueAfter1 c2dTrue exCid rfl rfl
    (by
      intro e h
      have h0 : get_single_data_commit_info c2S0 c2dTrue.table_id
          c2dTrue.partition_desc exCid = .ok none := by decide
      rw [h0] at h
      exact Option.noConfusion (Outcome.ok.inj h))
    (by decide)).1

/-! ## C5: unrecognized stored commit-op integer -/

def c5d : DataCommitInfo :=
  { table_id := "tid1", partition_desc := "a=1", commit_id := some exCid,
    commit_op := 99, committed := false }

/-- C5 counterexample: at a concrete `DataCommitInfo` whose stored
operation integer (99) decodes to no `CommitOp` variant,
`commit_data_commit_info` panics (`CommitOp::from_i32(..).unwrap()` on
`None`) instead of returning a typed decode-failure error. -/
theorem cdci_unrecognized_op_cex :
    commit_data_commit_info c2S0 c5d
      = .panicked "called Option.unwrap on a None value" := by decide

/-- C5 (amended): when the stored integer operation kind decodes to no
`CommitOp` variant, `commit_data_commit_info` panics via `unwrap` on the
failed decode (after the duplicate check and table lookup) — it neither
substitutes a default operation nor returns a typed error. -/
theorem cdci_unrecognized_op_panics (s : MetaState) (d : DataCommitInfo) (cid : Uuid)
    (ti : TableInfo)
    (hcid : d.commit_id = some cid)
    (hdec : CommitOp.fromInt d.commit_op = none)
    (hno : ∀ e, get_single_data_commit_info s d.table_id d.partition_desc cid
        = .ok (some e) → e.committed = false)
    (hti : get_table_info_by_table_id s d.table_id = .ok ti) :
    commit_data_commit_info s d = .panicked "called Option.unwrap on a None value" := by
  have hrest : ∀ s₁ : MetaState, get_table_info_by_table_id s₁ d.table_id = .ok ti →
      commitDataCommitInfoRest s₁ d cid
        = .panicked "called Option.unwrap on a None value" := by
    intro s₁ h₁
    simp only [commitDataCommitInfoRest, h₁, get_table_domain, hdec]
  cases hlook : get_single_data_commit_info s d.table_id d.partition_desc cid with
  | err e => rw [get_single_filter] at hlook; exact Outcome.noConfusion hlook
  | panicked m => rw [get_single_filter] at hlook; exact Outcome.noConfusion hlook
  | ok lookup =>
    cases lookup with
    | some e =>
      have hc := hno e hlook
      simp only [commit_data_commit_info, hcid, hlook, hc, Bool.false_eq_true,
        if_false]
      exact hrest s hti
    | none =>
      simp only [commit_data_commit_info, hcid, hlook]
      exact hrest _ ((get_table_info_after_insert s d d.table_id).trans hti)

def c5WState : MetaState := { dataCommits := [c5d], tableInfos := [exTable] }

/-- C5 witness: the amended statement applied where the lookup finds the
(uncommitted) row already present. -/
theorem cdci_unrecognized_op_panics_witness :
    commit_data_commit_info c5WState c5d
      = .panicked "called Option.unwrap on a None value" :=
  cdci_unrecognized_op_panics c5WState c5d exCid exTable rfl (by decide)
    (by
      intro e h
      have h0 : get_single_data_commit_info c5WState c5d.table_id
          c5d.partition_desc exCid = .ok (some c5d) := by decide
      rw [h0] at h
      have he := Option.some.inj (Outcome.ok.inj h)
      rw [← he]
      rfl)
    (by decide)

/-! ## C8: delegation to commit_data with a single-snapshot partition -/

/-- C8: after the duplicate check (which either keeps the state or
inserts the commit row), `commit_data_commit_info` delegates to
`commit_data` with a `MetaInfo` holding the owning `TableInfo` and
exactly one `PartitionInfo` whose table id and partition descriptor are
those of the `DataCommitInfo` and whose snapshot list is exactly the
single commit identifier. -/
theorem cdci_delegates_single_partition (s : MetaState) (d : DataCommitInfo)
    (cid : Uuid) (ti : TableInfo) (op : CommitOp)
    (hcid : d.commit_id = some cid)
    (hno : ∀ e, get_single_data_commit_info s d.table_id d.partition_desc cid
        = .ok (some e) → e.committed = false)
    (hti : get_table_info_by_table_id s d.table_id = .ok ti)
    (hdec : CommitOp.fromInt d.commit_op = some op) :
    ∃ s₁, (s₁ = s ∨ s₁ = insert_data_commit_info s d) ∧
      commit_data_commit_info s d =
        commit_data s₁
          { table_info := some ti
            list_partition := [{ table_id := d.table_id
                                 partition_desc := d.partition_desc
                                 version := 0
                                 snapshot := [cid]
                                 domain := "public"
                                 commit_op := d.commit_op
                                 expression := "" }] }
          op := by
  have hrest : ∀ s₁ : MetaState, get_table_info_by_table_id s₁ d.table_id = .ok ti →
      commitDataCommitInfoRest s₁ d cid =
        commit_data s₁
          { table_info := some ti
            list_partition := [{ table_id := d.table_id
                                 partition_desc := d.partition_desc
                                 version := 0
                                 snapshot := [cid]
                                 domain := "public"
                                 commit_op := d.commit_op
                                 expression := "" }] }
          op := by
    intro s₁ h₁
    simp only [commitDataCommitInfoRest, h₁, get_table_domain, hdec,
      commitDataCommitInfoMetaInfo]
  cases hlook : get_single_data_commit_info s d.table_id d.partition_desc cid with
  | err e => rw [get_single_filter] at hlook; exact Outcome.noConfusion hlook
  | panicked m => rw [get_single_filter] at hlook; exact Outcome.noConfusion hlook
  | ok lookup =>
    cases lookup with
    | some e =>
      have hc := hno e hlook
      refine ⟨s, Or.inl rfl, ?_⟩
      simp only [commit_data_commit_info, hcid, hlook, hc, Bool.false_eq_true,
        if_false]
      exact hrest s hti
    | none =>
      refine ⟨insert_data_commit_info s d, Or.inr rfl, ?_⟩
      simp only [commit_data_commit_info, hcid, hlook]
      exact hrest _ ((get_table_info_after_insert s d d.table_id).trans hti)

/-- C8 witness: the delegation at a concrete commit against a clean
store. -/
theorem cdci_delegates_single_partition_witness :
    ∃ s₁, (s₁ = c2S0 ∨ s₁ = insert_data_commit_info c2S0 c2dTrue) ∧
      commit_data_commit_info c2S0 c2dTrue =
        commit_data s₁
          { table_info := some exTable
            list_partition := [{ table_id := "tid1"
                                 partition_desc := "a=1"
                                 version := 0
                                 snapshot := [exCid]
                                 domain := "public"
                                 commit_op := 2
                                 expression := "" }] }
          CommitOp.AppendCommit :=
  cdci_delegates_single_partition c2S0 c2dTrue exCid exTable CommitOp.AppendCommit rfl
    (by
      intro e h
      have h0 : get_single_data_commit_info c2S0 c2dTrue.table_id
          c2dTrue.partition_desc exCid = .ok none := by decide
      rw [h0] at h
      exact Option.noConfusion (Outcome.ok.inj h))
    (by decide) (by decide)

/-! ## C6: not-found error versus valid absence -/

/-- C6: a table lookup by (name, namespace) over zero rows returns the
typed not-found error whose message names the queried table, while a
single data-commit lookup over zero rows returns `Ok(None)` — absence
without error. -/
theorem not_found_vs_absent (s : MetaState) (table_name nspace tid pdesc : String)
    (cid : Uuid)
    (h1 : s.tableInfos.filter (fun t =>
        t.table_name == table_name && t.table_namespace == nspace) = [])
    (h2 : s.dataCommits.filter (fun c =>
        c.table_id == tid && c.partition_desc == pdesc && c.commit_id == some cid) = []) :
    get_table_info_by_table_name s table_name nspace
        = .err (.Internal ("Table '" ++ table_name ++ "' not found"))
      ∧ get_single_data_commit_info s tid pdesc cid = .ok none := by
  constructor
  · simp only [get_table_info_by_table_name, h1]
  · rw [get_single_filter, h2]
    rfl

/-- C6 witness: both lookups against the empty store. -/
theorem not_found_vs_absent_witness :
    get_table_info_by_table_name ({} : MetaState) "tbl" "ns"
        = .err (.Internal ("Table '" ++ "tbl" ++ "' not found"))
      ∧ get_single_data_commit_info ({} : MetaState) "tid1" "a=1" exCid = .ok none :=
  not_found_vs_absent {} "tbl" "ns" "tid1" "a=1" exCid rfl rfl

/-! ## C10: unchecked zero-index lookups -/

/-- C10: `get_table_name_id_by_table_name` and
`get_table_info_by_table_id` index element 0 of the returned record list
without an emptiness check, so zero rows panic out-of-bounds instead of
yielding a typed not-found error — unlike `get_table_info_by_table_name`,
which checks emptiness first and returns the typed error. -/
theorem index_zero_panics_on_empty (s : MetaState) (table_name nspace tid : String)
    (h1 : s.tableNameIds.filter (fun t =>
        t.table_name == table_name && t.table_namespace == nspace) = [])
    (h2 : s.tableInfos.filter (fun t => t.table_id == tid) = [])
    (h3 : s.tableInfos.filter (fun t =>
        t.table_name == table_name && t.table_namespace == nspace) = []) :
    get_table_name_id_by_table_name s table_name nspace
        = .panicked "index out of bounds: the len is 0 but the index is 0"
      ∧ get_table_info_by_table_id s tid
        = .panicked "index out of bounds: the len is 0 but the index is 0"
      ∧ get_table_info_by_table_name s table_name nspace
        = .err (.Internal ("Table '" ++ table_name ++ "' not found")) := by
  refine ⟨?_, ?_, ?_⟩
  · simp only [get_table_name_id_by_table_name, h1]
  · simp only [get_table_info_by_table_id, h2]
  · simp only [get_table_info_by_table_name, h3]

/-- C10 witness: the three lookups against the empty store. -/
theorem index_zero_panics_on_empty_witness :
    get_table_name_id_by_table_name ({} : MetaState) "tbl" "ns"
        = .panicked "index out of bounds: the len is 0 but the index is 0"
      ∧ get_table_info_by_table_id ({} : MetaState) "tid1"
        = .panicked "index out of bounds: the len is 0 but the index is 0"
      ∧ get_table_info_by_table_name ({} : MetaState) "tbl" "ns"
        = .err (.Internal ("Table '" ++ "tbl" ++ "' not found")) :=
  index_zero_panics_on_empty {} "tbl" "ns" "tid1" rfl rfl rfl

/-! ## C7: data-file listing with an exclude filter -/

theorem dataFilesLoop_filter (s : MetaState) (flt : List String) :
    ∀ l : List PartitionInfo,
      dataFilesLoop s flt l =
        (l.filter fun p => !flt.contains p.partition_desc).flatMap
          fun p => partitionDataFiles s p
  | [] => rfl
  | p :: rest => by
    simp only [dataFilesLoop, List.filter_cons]
    by_cases h : p.partition_desc ∈ flt <;>
      simp [h, dataFilesLoop_filter s flt rest]

/-- C7: `get_data_files_by_table_name` skips every partition whose
descriptor occurs in the rendered filter set (exclude semantics) and
returns, in partition enumeration order, the flattened file-operation
paths of each remaining partition's commit list in per-commit order. -/
theorem get_data_files_excludes_filtered (s : MetaState) (table_name nspace : String)
    (partitions : List (String × String)) (ti : TableInfo)
    (hti : get_table_info_by_table_name s table_name nspace = .ok ti) :
    get_data_files_by_table_name s table_name partitions nspace =
      .ok (((get_all_partition_info s ti.table_id).filter fun p =>
          !(partitions.map fun kv => kv.1 ++ "=" ++ kv.2).contains p.partition_desc).flatMap
            fun p => (get_data_commit_info_of_single_partition s p).flatMap
              fun dci => dci.file_ops.map fun fo => fo.path) := by
  simp only [get_data_files_by_table_name, hti, dataFilesLoop_filter, partitionDataFiles]

def c7u1 : Uuid := { high := 10, low := 1 }
def c7u2 : Uuid := { high := 10, low := 2 }
def c7u3 : Uuid := { high := 10, low := 3 }

def c7State : MetaState :=
  { partitions :=
      [{ table_id := "tid1", partition_desc := "a=1", version := 0,
         snapshot := [c7u1], domain := "public", commit_op := 2 },
       { table_id := "tid1", partition_desc := "b=1", version := 0,
         snapshot := [c7u2], domain := "public", commit_op := 2 },
       { table_id := "tid1", partition_desc := "c=1", version := 0,
         snapshot := [c7u3], domain := "public", commit_op := 2 }]
    dataCommits :=
      [{ table_id := "tid1", partition_desc := "a=1", commit_id := some c7u1,
         file_ops := [{ path := "a/1", file_op := 0 }], commit_op := 2,
         committed := true },
       { table_id := "tid1", partition_desc := "b=1", commit_id := some c7u2,
         file_ops := [{ path := "b/1", file_op := 0 }, { path := "b/2", file_op := 0 }],
         commit_op := 2, committed := true },
       { table_id := "tid1", partition_desc := "c=1", commit_id := some c7u3,
         file_ops := [{ path := "c/1", file_op := 0 }], commit_op := 2,
         committed := true }]
    tableInfos := [exTable] }

/-- C7 witness: the concrete scenario — P1 (`a=1`) is in the filter set
with path `a/1`, P2 and P3 are not with paths `b/1`,`b/2` and `c/1`; the
call returns exactly `["b/1","b/2","c/1"]`, never including `"a/1"`. -/
theorem get_data_files_excludes_filtered_witness :
    get_data_files_by_table_name c7State "tbl" [("a", "1")] "ns"
      = .ok ["b/1", "b/2", "c/1"] :=
  (get_data_files_excludes_filtered c7State "tbl" "ns" [("a", "1")] exTable
      (by decide)).trans (by decide)

end LakeSoul
